import Mathlib

/-!
Verification of the lazy-expression-deduction static check described in
spec.md for the rimathia/libclang-check-example repository.  The repository
ships only the example translation units (src/examples.cpp); the detection
engine itself (Type Classifier, shape analyzer for initializing
expressions, Declaration Visitor, Verdict Engine) is not present under
src/, so each of its operations is modelled from the spec, as marked on
the individual definitions below.
-/

/-- Modelled from the spec: the TypeVerdict produced by the Type Classifier
(spec section 3); the classifier implementation is missing from src/. -/
inductive TypeVerdict where
  | PLAIN_VALUE
  | LAZY_COMPOSITE
  | UNRELATED
  deriving DecidableEq, Repr

/-- Modelled from the spec: the shape of an initializing expression
(spec section 3, InitializerShape); the shape analyzer implementation is
missing from src/. -/
inductive InitShape where
  | BARE_REFERENCE
  | MATERIALIZING_CALL
  | COMPOSITE
  deriving DecidableEq, Repr

/-- Modelled from the spec: the per-declaration verdict of the Verdict
Engine (spec section 4.4), whose implementation is missing from src/. -/
inductive Verdict where
  | SAFE
  | UNSAFE
  | NOT_APPLICABLE
  deriving DecidableEq, Repr

/-- Modelled from the spec: a fully resolved type as seen through the
compiler collaborator's query surface (spec sections 3 and 6).  An
underlying type is either a storage-owning value type of the target
library (`owned`, e.g. an Eigen Matrix or Vector), a specialization of a
named class-template family (`tpl`, e.g. Product or CwiseBinaryOp), or a
type unrelated to the library (`unrelated`, e.g. double); on top of that
a type may be const-qualified or reference-bound. -/
inductive ResolvedType where
  | owned
  | tpl (family : String)
  | unrelated
  | constQ (t : ResolvedType)
  | ref (t : ResolvedType)
  deriving DecidableEq, Repr

/-- Modelled from the spec: syntax tree of an initializing expression as
the shape analyzer sees it (spec sections 3 and 4.2).  `declRef` is a
reference to a previously declared value, `call` a function or method
call identified by its callee name, `binop` an operator application,
`paren` a redundant parenthesis group, `implicitCast` an
implicit-conversion node, and `other` an unrecognized construct (handled
fail-safe per spec section 7).  Source formatting (line breaks, comments)
is not part of the tree, mirroring the spec's demand that classification
walks node structure, not source text. -/
inductive Expr where
  | declRef (name : String)
  | call (callee : String) (args : List Expr)
  | binop (op : String) (lhs rhs : Expr)
  | paren (e : Expr)
  | implicitCast (e : Expr)
  | other

/-- Modelled from the spec: the configuration surface consumed by the core
(spec section 6): the template families recognized as LAZY_COMPOSITE and
the name of the materializing operation. -/
structure Config where
  lazyFamilies : List String
  materializingOp : String
  deriving DecidableEq, Repr

/-- Modelled from the spec: the Type Classifier `classify` (spec section
4.1), missing from src/.  Strips const-qualification and reference
binding, then reports LAZY_COMPOSITE for a specialization of a configured
expression-template family, PLAIN_VALUE for a storage-owning library
value type, and UNRELATED otherwise. -/
def classify (cfg : Config) : ResolvedType → TypeVerdict
  | ResolvedType.constQ t => classify cfg t
  | ResolvedType.ref t => classify cfg t
  | ResolvedType.owned => TypeVerdict.PLAIN_VALUE
  | ResolvedType.tpl f =>
    if f ∈ cfg.lazyFamilies then TypeVerdict.LAZY_COMPOSITE else TypeVerdict.UNRELATED
  | ResolvedType.unrelated => TypeVerdict.UNRELATED

/-- Modelled from the spec: the shape analyzer `shapeOf` (spec section
4.2), missing from src/.  Parenthesis groups and implicit conversions are
transparent; a bare reference to an existing value is BARE_REFERENCE; a
call is MATERIALIZING_CALL exactly when its callee is the designated
materializing operation and it is the outermost node; everything else,
including unrecognized constructs, is COMPOSITE (fail-safe, spec
section 7). -/
def shapeOf (cfg : Config) : Expr → InitShape
  | Expr.paren e => shapeOf cfg e
  | Expr.implicitCast e => shapeOf cfg e
  | Expr.declRef _ => InitShape.BARE_REFERENCE
  | Expr.call f _ =>
    if f = cfg.materializingOp then InitShape.MATERIALIZING_CALL else InitShape.COMPOSITE
  | Expr.binop _ _ _ => InitShape.COMPOSITE
  | Expr.other => InitShape.COMPOSITE

/-- Modelled from the spec: the four surface spellings of the
inferred-type placeholder (spec section 4.3): plain auto, const auto,
reference-bound auto, and decltype(auto). -/
inductive Spelling where
  | plain
  | constQualified
  | refBound
  | preserveCategory
  deriving DecidableEq, Repr

/-- Modelled from the spec: the declared-type form of a local variable
declaration — an inferred-type placeholder in one of its spellings, or an
explicit (non-inferred) type (spec section 4.3). -/
inductive DeclKind where
  | inferred (spelling : Spelling)
  | explicitTy
  deriving DecidableEq, Repr

/-- Modelled from the spec: a local variable declaration of a compilation
unit as enumerated by the compiler collaborator (spec section 6): source
location, declared-type form, the resolved type (none when the
collaborator cannot resolve it, spec section 7), and the initializing
expression. -/
structure VarDecl where
  loc : Nat
  kind : DeclKind
  resolvedType : Option ResolvedType
  init : Expr

/-- Modelled from the spec: a DeclarationCandidate (spec section 3):
location, placeholder spelling, resolved type, and initializing
expression of one inferred-type declaration. -/
structure DeclarationCandidate where
  loc : Nat
  spelling : Spelling
  resolvedType : Option ResolvedType
  init : Expr

/-- Modelled from the spec: the per-declaration step of the Declaration
Visitor (spec section 4.3): an inferred-type declaration yields a
candidate, an explicit-type declaration yields none. -/
def candidateOf (d : VarDecl) : Option DeclarationCandidate :=
  match d.kind with
  | DeclKind.inferred sp => some ⟨d.loc, sp, d.resolvedType, d.init⟩
  | DeclKind.explicitTy => none

/-- Modelled from the spec: the Declaration Visitor `findCandidates`
(spec section 4.3), missing from src/: visits declarations in order and
keeps exactly the inferred-type ones. -/
def findCandidates (unit : List VarDecl) : List DeclarationCandidate :=
  unit.filterMap candidateOf

/-- Modelled from the spec: diagnostic severity (spec section 3: every
produced diagnostic has severity warning). -/
inductive Severity where
  | warning
  deriving DecidableEq, Repr

/-- Modelled from the spec: a Diagnostic record (spec section 3):
location, severity, message, optional suggested replacement text. -/
structure Diagnostic where
  loc : Nat
  severity : Severity
  message : String
  fixit : Option String
  deriving DecidableEq, Repr

/-- Modelled from the spec: diagnostic wording names the placeholder
spelling used by the offending declaration (spec section 4.4). -/
def spellingName : Spelling → String
  | Spelling.plain => "auto"
  | Spelling.constQualified => "const auto"
  | Spelling.refBound => "auto reference"
  | Spelling.preserveCategory => "decltype auto"

/-- Modelled from the spec: the diagnostic built for an UNSAFE candidate
(spec section 4.4): a warning at the declaration, naming the inferred
spelling and recommending an outermost materializing call or an explicit
value type. -/
def mkDiagnostic (c : DeclarationCandidate) : Diagnostic :=
  ⟨c.loc, Severity.warning,
    "variable declared with " ++ spellingName c.spelling ++
      " deduces a lazy composite; apply the materializing call to the whole expression or declare an explicit value type",
    none⟩

/-- Modelled from the spec: the Verdict Engine decision table (spec
section 4.4), missing from src/.  The type verdict is computed first and
short-circuits: UNRELATED is NOT_APPLICABLE, PLAIN_VALUE is SAFE, and a
LAZY_COMPOSITE type is UNSAFE exactly when the shape is COMPOSITE. -/
def verdictOf (cfg : Config) (t : ResolvedType) (e : Expr) : Verdict :=
  match classify cfg t with
  | TypeVerdict.UNRELATED => Verdict.NOT_APPLICABLE
  | TypeVerdict.PLAIN_VALUE => Verdict.SAFE
  | TypeVerdict.LAZY_COMPOSITE =>
    match shapeOf cfg e with
    | InitShape.BARE_REFERENCE => Verdict.SAFE
    | InitShape.MATERIALIZING_CALL => Verdict.SAFE
    | InitShape.COMPOSITE => Verdict.UNSAFE

/-- Modelled from the spec: `evaluate(candidate)` (spec section 4.4);
a candidate whose type the collaborator could not resolve is skipped
(spec section 7), yielding no verdict. -/
def evaluate (cfg : Config) (c : DeclarationCandidate) : Option Verdict :=
  match c.resolvedType with
  | none => none
  | some t => some (verdictOf cfg t c.init)

/-- Modelled from the spec: the diagnostics produced for one candidate:
exactly one warning when the verdict is UNSAFE, none otherwise, and none
when the type is unresolved (spec sections 4.4 and 7). -/
def diagnosticsFor (cfg : Config) (c : DeclarationCandidate) : List Diagnostic :=
  match c.resolvedType with
  | none => []
  | some t =>
    if verdictOf cfg t c.init = Verdict.UNSAFE then [mkDiagnostic c] else []

/-- Modelled from the spec: `analyzeUnit` (spec section 6), missing from
src/: find the candidates of the unit in declaration order and collect
the diagnostics of each. -/
def analyzeUnit (cfg : Config) (unit : List VarDecl) : List Diagnostic :=
  (findCandidates unit).flatMap (diagnosticsFor cfg)

/-- The configuration matching the Eigen-targeted examples in
src/examples.cpp: the lazy expression-template families named in its
comments and eval as the materializing operation. -/
def eigenCfg : Config :=
  ⟨["Product", "CwiseBinaryOp", "Transpose", "Normalized"], "eval"⟩

/-- Iterated redundant parenthesization of an expression. -/
def wrapParens : Nat → Expr → Expr
  | 0, e => e
  | n + 1, e => Expr.paren (wrapParens n e)

/-- The initializing expression `A * B` of example1 in src/examples.cpp. -/
def exprMulAB : Expr :=
  Expr.binop "*" (Expr.declRef "A") (Expr.declRef "B")

/-- The initializing expression `A * B + D.transpose()` of example7 and of
the multi-line examples in src/examples.cpp (the multi-line and
parenthesized sources parse to this same tree). -/
def exprComplexABD : Expr :=
  Expr.binop "+" exprMulAB (Expr.call "transpose" [Expr.declRef "D"])

/-- The initializing expression `(A * B).eval()` of example4 in
src/examples.cpp. -/
def exprEvalAB : Expr :=
  Expr.call "eval" [Expr.paren exprMulAB]

/-- Qualifier stripping in the classifier: const-qualification never
changes the type verdict. -/
theorem classify_constQ (cfg : Config) (t : ResolvedType) :
    classify cfg (ResolvedType.constQ t) = classify cfg t := by
  simp [classify]

/-- Qualifier stripping in the classifier: reference binding never
changes the type verdict. -/
theorem classify_ref (cfg : Config) (t : ResolvedType) :
    classify cfg (ResolvedType.ref t) = classify cfg t := by
  simp [classify]

/-- The verdict is UNSAFE exactly for a lazy-composite type with a
composite-shaped initializing expression. -/
theorem unsafeVerdict_iff (cfg : Config) (t : ResolvedType) (e : Expr) :
    verdictOf cfg t e = Verdict.UNSAFE ↔
      classify cfg t = TypeVerdict.LAZY_COMPOSITE ∧
        shapeOf cfg e = InitShape.COMPOSITE := by
  unfold verdictOf
  cases hc : classify cfg t <;> cases hs : shapeOf cfg e <;> simp_all

/-- The diagnostics of one candidate: none, or exactly the one warning
built by mkDiagnostic. -/
theorem diagnosticsFor_cases (cfg : Config) (c : DeclarationCandidate) :
    diagnosticsFor cfg c = [] ∨ diagnosticsFor cfg c = [mkDiagnostic c] := by
  unfold diagnosticsFor
  cases c.resolvedType with
  | none => exact Or.inl rfl
  | some t =>
    by_cases h : verdictOf cfg t c.init = Verdict.UNSAFE
    · exact Or.inr (by simp [h])
    · exact Or.inl (by simp [h])

/-- C1: a type-inferred declaration whose deduced type classifies as
LAZY_COMPOSITE and whose initializing expression has shape COMPOSITE
receives verdict UNSAFE, and the engine produces exactly one diagnostic
for it, of severity warning. -/
theorem C1_lazy_composite_yields_unsafe (cfg : Config) (c : DeclarationCandidate)
    (t : ResolvedType) (ht : c.resolvedType = some t)
    (hty : classify cfg t = TypeVerdict.LAZY_COMPOSITE)
    (hsh : shapeOf cfg c.init = InitShape.COMPOSITE) :
    verdictOf cfg t c.init = Verdict.UNSAFE ∧
      diagnosticsFor cfg c = [mkDiagnostic c] ∧
      (mkDiagnostic c).severity = Severity.warning := by
  have hv : verdictOf cfg t c.init = Verdict.UNSAFE := by
    simp [verdictOf, hty, hsh]
  exact ⟨hv, by simp [diagnosticsFor, ht, hv], rfl⟩

/-- The candidate produced by `auto C = A * B;` (example1 of
src/examples.cpp), whose deduced type is the Product expression
template. -/
def ex1Candidate : DeclarationCandidate :=
  ⟨11, Spelling.plain, some (ResolvedType.tpl "Product"), exprMulAB⟩

/-- C1 witness: at the concrete example1 candidate the hypotheses hold
and the engine reports UNSAFE with a single warning. -/
theorem C1_witness :
    ex1Candidate.resolvedType = some (ResolvedType.tpl "Product") ∧
      classify eigenCfg (ResolvedType.tpl "Product") = TypeVerdict.LAZY_COMPOSITE ∧
      shapeOf eigenCfg ex1Candidate.init = InitShape.COMPOSITE ∧
      (verdictOf eigenCfg (ResolvedType.tpl "Product") ex1Candidate.init = Verdict.UNSAFE ∧
        diagnosticsFor eigenCfg ex1Candidate = [mkDiagnostic ex1Candidate] ∧
        (mkDiagnostic ex1Candidate).severity = Severity.warning) :=
  ⟨rfl, by decide, by decide,
    C1_lazy_composite_yields_unsafe eigenCfg ex1Candidate (ResolvedType.tpl "Product")
      rfl (by decide) (by decide)⟩

/-- C2: the materializing call only counts when outermost.  A call to a
non-materializing operation, or an operator application, wrapping a
materializing call on a sub-expression, has shape COMPOSITE, and for a
lazy-composite deduced type the verdict is UNSAFE. -/
theorem C2_outermost_only_rule (cfg : Config) (t : ResolvedType) (f : String)
    (x y : Expr) (hty : classify cfg t = TypeVerdict.LAZY_COMPOSITE)
    (hf : f ≠ cfg.materializingOp) :
    shapeOf cfg (Expr.call f [Expr.call cfg.materializingOp [x]]) = InitShape.COMPOSITE ∧
      verdictOf cfg t (Expr.call f [Expr.call cfg.materializingOp [x]]) = Verdict.UNSAFE ∧
      shapeOf cfg (Expr.binop "+" y (Expr.call cfg.materializingOp [x])) = InitShape.COMPOSITE ∧
      verdictOf cfg t (Expr.binop "+" y (Expr.call cfg.materializingOp [x])) = Verdict.UNSAFE := by
  have h1 : shapeOf cfg (Expr.call f [Expr.call cfg.materializingOp [x]]) =
      InitShape.COMPOSITE := by
    simp [shapeOf, hf]
  have h2 : shapeOf cfg (Expr.binop "+" y (Expr.call cfg.materializingOp [x])) =
      InitShape.COMPOSITE := by
    simp [shapeOf]
  exact ⟨h1, by simp [verdictOf, hty, h1], h2, by simp [verdictOf, hty, h2]⟩

/-- C2 witness: at example3, `((A + B).eval()).transpose()` — the
transpose call wraps a materializing eval on a sub-expression — both
shapes are COMPOSITE and both verdicts UNSAFE for the deduced Transpose
expression-template type. -/
theorem C2_witness :
    classify eigenCfg (ResolvedType.tpl "Transpose") = TypeVerdict.LAZY_COMPOSITE ∧
      "transpose" ≠ eigenCfg.materializingOp ∧
      (shapeOf eigenCfg
          (Expr.call "transpose"
            [Expr.call eigenCfg.materializingOp [Expr.paren (Expr.binop "+" (Expr.declRef "A") (Expr.declRef "B"))]]) =
          InitShape.COMPOSITE ∧
        verdictOf eigenCfg (ResolvedType.tpl "Transpose")
          (Expr.call "transpose"
            [Expr.call eigenCfg.materializingOp [Expr.paren (Expr.binop "+" (Expr.declRef "A") (Expr.declRef "B"))]]) =
          Verdict.UNSAFE ∧
        shapeOf eigenCfg
          (Expr.binop "+" (Expr.declRef "u")
            (Expr.call eigenCfg.materializingOp [Expr.paren (Expr.binop "+" (Expr.declRef "A") (Expr.declRef "B"))])) =
          InitShape.COMPOSITE ∧
        verdictOf eigenCfg (ResolvedType.tpl "Transpose")
          (Expr.binop "+" (Expr.declRef "u")
            (Expr.call eigenCfg.materializingOp [Expr.paren (Expr.binop "+" (Expr.declRef "A") (Expr.declRef "B"))])) =
          Verdict.UNSAFE) :=
  ⟨by decide, by decide,
    C2_outermost_only_rule eigenCfg (ResolvedType.tpl "Transpose") "transpose"
      (Expr.paren (Expr.binop "+" (Expr.declRef "A") (Expr.declRef "B")))
      (Expr.declRef "u") (by decide) (by decide)⟩

/-- An initializing expression whose outermost node is the materializing
eval call, applied to a value of a type unrelated to the library (a user
type with its own eval method). -/
def exprEvalUnrelated : Expr :=
  Expr.call "eval" [Expr.declRef "d"]

/-- C3 counterexample: a type-inferred declaration whose parenthesis-
stripped initializing expression is outermost a call to the designated
materializing operation, but whose deduced type is unrelated to the
library, receives verdict NOT_APPLICABLE, not SAFE — so the claim as
stated fails at this input (though no diagnostic is produced). -/
theorem C3_counterexample :
    shapeOf eigenCfg exprEvalUnrelated = InitShape.MATERIALIZING_CALL ∧
      verdictOf eigenCfg ResolvedType.unrelated exprEvalUnrelated ≠ Verdict.SAFE ∧
      verdictOf eigenCfg ResolvedType.unrelated exprEvalUnrelated = Verdict.NOT_APPLICABLE := by
  decide

/-- C3 (amended): for a type-inferred declaration whose parenthesis-
stripped initializing expression is outermost a call to the designated
materializing operation, and whose deduced type is related to the target
library (not classified UNRELATED), the verdict is SAFE; and no
diagnostic is produced. -/
theorem C3_materializing_call_safe (cfg : Config) (c : DeclarationCandidate)
    (t : ResolvedType) (ht : c.resolvedType = some t)
    (hrel : classify cfg t ≠ TypeVerdict.UNRELATED)
    (hsh : shapeOf cfg c.init = InitShape.MATERIALIZING_CALL) :
    verdictOf cfg t c.init = Verdict.SAFE ∧ diagnosticsFor cfg c = [] := by
  have hv : verdictOf cfg t c.init = Verdict.SAFE := by
    cases hcl : classify cfg t with
    | PLAIN_VALUE => simp [verdictOf, hcl]
    | LAZY_COMPOSITE => simp [verdictOf, hcl, hsh]
    | UNRELATED => exact absurd hcl hrel
  exact ⟨hv, by simp [diagnosticsFor, ht, hv]⟩

/-- The candidate produced by `auto C = (A * B).eval();` (example4 of
src/examples.cpp), whose deduced type is the owned dense matrix. -/
def ex4Candidate : DeclarationCandidate :=
  ⟨86, Spelling.plain, some ResolvedType.owned, exprEvalAB⟩

/-- C3 witness: at the concrete example4 candidate (also standing for the
multi-line example_multiline2_safe_eval, whose eval call wraps the whole
expression) the hypotheses hold, the verdict is SAFE and no diagnostic is
produced. -/
theorem C3_witness :
    ex4Candidate.resolvedType = some ResolvedType.owned ∧
      classify eigenCfg ResolvedType.owned ≠ TypeVerdict.UNRELATED ∧
      shapeOf eigenCfg ex4Candidate.init = InitShape.MATERIALIZING_CALL ∧
      (verdictOf eigenCfg ResolvedType.owned ex4Candidate.init = Verdict.SAFE ∧
        diagnosticsFor eigenCfg ex4Candidate = []) :=
  ⟨rfl, by decide, by decide,
    C3_materializing_call_safe eigenCfg ex4Candidate ResolvedType.owned
      rfl (by decide) (by decide)⟩

/-- C4: classification is invariant under const-qualification and
reference binding, so the verdict of a declaration is the same for the
underlying type and any qualified variant, and is independent of the
placeholder spelling; concretely, `const auto& C = A * B;` is UNSAFE
exactly like `auto C = A * B;`. -/
theorem C4_qualifier_invariance (cfg : Config) (t : ResolvedType) (e : Expr)
    (sp₁ sp₂ : Spelling) (loc₁ loc₂ : Nat) :
    classify cfg (ResolvedType.constQ t) = classify cfg t ∧
      classify cfg (ResolvedType.ref t) = classify cfg t ∧
      classify cfg (ResolvedType.ref (ResolvedType.constQ t)) = classify cfg t ∧
      verdictOf cfg (ResolvedType.constQ t) e = verdictOf cfg t e ∧
      verdictOf cfg (ResolvedType.ref t) e = verdictOf cfg t e ∧
      verdictOf cfg (ResolvedType.ref (ResolvedType.constQ t)) e = verdictOf cfg t e ∧
      evaluate cfg ⟨loc₁, sp₁, some t, e⟩ = evaluate cfg ⟨loc₂, sp₂, some t, e⟩ ∧
      verdictOf eigenCfg (ResolvedType.ref (ResolvedType.constQ (ResolvedType.tpl "Product")))
          exprMulAB = Verdict.UNSAFE ∧
      verdictOf eigenCfg (ResolvedType.tpl "Product") exprMulAB = Verdict.UNSAFE := by
  have hc := classify_constQ cfg t
  have hr := classify_ref cfg t
  have hrc : classify cfg (ResolvedType.ref (ResolvedType.constQ t)) = classify cfg t := by
    rw [classify_ref, classify_constQ]
  refine ⟨hc, hr, hrc, ?_, ?_, ?_, rfl, by decide, by decide⟩
  · unfold verdictOf; rw [hc]
  · unfold verdictOf; rw [hr]
  · unfold verdictOf; rw [hrc]

/-- C5: a candidate whose deduced type classifies as PLAIN_VALUE receives
verdict SAFE whatever the shape of its initializing expression, and no
diagnostic is produced. -/
theorem C5_plain_value_always_safe (cfg : Config) (c : DeclarationCandidate)
    (t : ResolvedType) (ht : c.resolvedType = some t)
    (hty : classify cfg t = TypeVerdict.PLAIN_VALUE) :
    verdictOf cfg t c.init = Verdict.SAFE ∧ diagnosticsFor cfg c = [] := by
  have hv : verdictOf cfg t c.init = Verdict.SAFE := by
    simp [verdictOf, hty]
  exact ⟨hv, by simp [diagnosticsFor, ht, hv]⟩

/-- The candidate produced by `auto result = compute_result(A, v);`
(example11 of src/examples.cpp): an ordinary function returning an owned
vector by value, with a COMPOSITE-shaped call as its initializing
expression. -/
def ex11Candidate : DeclarationCandidate :=
  ⟨222, Spelling.plain, some ResolvedType.owned,
    Expr.call "compute_result" [Expr.declRef "A", Expr.declRef "v"]⟩

/-- C5 witness: at the concrete example11 candidate — whose shape is
COMPOSITE, showing that the type verdict short-circuits shape analysis —
the verdict is SAFE and no diagnostic is produced. -/
theorem C5_witness :
    ex11Candidate.resolvedType = some ResolvedType.owned ∧
      classify eigenCfg ResolvedType.owned = TypeVerdict.PLAIN_VALUE ∧
      shapeOf eigenCfg ex11Candidate.init = InitShape.COMPOSITE ∧
      (verdictOf eigenCfg ResolvedType.owned ex11Candidate.init = Verdict.SAFE ∧
        diagnosticsFor eigenCfg ex11Candidate = []) :=
  ⟨rfl, by decide, by decide,
    C5_plain_value_always_safe eigenCfg ex11Candidate ResolvedType.owned
      rfl (by decide)⟩

/-- One redundant parenthesis group is transparent to the shape
analyzer. -/
theorem shapeOf_paren (cfg : Config) (e : Expr) :
    shapeOf cfg (Expr.paren e) = shapeOf cfg e := by
  simp [shapeOf]

/-- Any number of redundant parenthesis groups is transparent to the
shape analyzer. -/
theorem shapeOf_wrapParens (cfg : Config) (n : Nat) (e : Expr) :
    shapeOf cfg (wrapParens n e) = shapeOf cfg e := by
  induction n with
  | zero => rfl
  | succ k ih =>
    calc shapeOf cfg (wrapParens (k + 1) e)
        = shapeOf cfg (wrapParens k e) := shapeOf_paren cfg (wrapParens k e)
      _ = shapeOf cfg e := ih

/-- C6: wrapping an initializing expression in any number of redundant
parenthesis groups leaves its shape, and hence its verdict, unchanged;
in this embedding a multi-line reformatting parses to the identical tree,
so formatting invariance is inherited.  Concretely, the parenthesized and
multi-line forms of `A * B + D.transpose()` classify as COMPOSITE just
like the single-line form. -/
theorem C6_formatting_invariance (cfg : Config) (t : ResolvedType) (e : Expr) (n : Nat) :
    shapeOf cfg (wrapParens n e) = shapeOf cfg e ∧
      verdictOf cfg t (wrapParens n e) = verdictOf cfg t e ∧
      shapeOf cfg exprComplexABD = InitShape.COMPOSITE ∧
      shapeOf cfg (wrapParens n exprComplexABD) = shapeOf cfg exprComplexABD := by
  have h := shapeOf_wrapParens cfg n e
  refine ⟨h, ?_, rfl, shapeOf_wrapParens cfg n exprComplexABD⟩
  unfold verdictOf
  rw [h]

/-- C7: a declaration with an explicit (non-inferred) value type yields
no candidate at all: the Declaration Visitor drops it, and the unit's
diagnostics are exactly those of the remaining declarations. -/
theorem C7_explicit_type_never_candidate (cfg : Config) (d : VarDecl)
    (rest : List VarDecl) (hd : d.kind = DeclKind.explicitTy) :
    candidateOf d = none ∧
      findCandidates (d :: rest) = findCandidates rest ∧
      analyzeUnit cfg (d :: rest) = analyzeUnit cfg rest := by
  have hc : candidateOf d = none := by
    simp [candidateOf, hd]
  refine ⟨hc, ?_, ?_⟩
  · simp [findCandidates, List.filterMap_cons, hc]
  · simp [analyzeUnit, findCandidates, List.filterMap_cons, hc]

/-- The declaration `MatrixXd C = A * B;` (example5 of src/examples.cpp):
an explicit, non-inferred value type. -/
def ex5Decl : VarDecl :=
  ⟨116, DeclKind.explicitTy, some ResolvedType.owned, exprMulAB⟩

/-- C7 witness: at the concrete example5 declaration, alone in a unit,
no candidate is emitted and no diagnostic is produced. -/
theorem C7_witness :
    ex5Decl.kind = DeclKind.explicitTy ∧
      (candidateOf ex5Decl = none ∧
        findCandidates [ex5Decl] = findCandidates [] ∧
        analyzeUnit eigenCfg [ex5Decl] = analyzeUnit eigenCfg []) :=
  ⟨rfl, C7_explicit_type_never_candidate eigenCfg ex5Decl [] rfl⟩

/-- C8: a candidate whose deduced type classifies as UNRELATED receives
verdict NOT_APPLICABLE whatever the shape of its initializing expression,
and no diagnostic is produced; qualified variants of an unrelated type
classify UNRELATED as well. -/
theorem C8_unrelated_never_flagged (cfg : Config) (c : DeclarationCandidate)
    (t : ResolvedType) (ht : c.resolvedType = some t)
    (hty : classify cfg t = TypeVerdict.UNRELATED) :
    verdictOf cfg t c.init = Verdict.NOT_APPLICABLE ∧
      diagnosticsFor cfg c = [] ∧
      classify cfg (ResolvedType.ref (ResolvedType.constQ ResolvedType.unrelated)) =
        TypeVerdict.UNRELATED := by
  have hv : verdictOf cfg t c.init = Verdict.NOT_APPLICABLE := by
    simp [verdictOf, hty]
  exact ⟨hv, by simp [diagnosticsFor, ht, hv], by simp [classify]⟩

/-- The candidate produced by `auto c = a * b;` over doubles (example12
of src/examples.cpp). -/
def ex12Candidate : DeclarationCandidate :=
  ⟨292, Spelling.plain, some ResolvedType.unrelated,
    Expr.binop "*" (Expr.declRef "a") (Expr.declRef "b")⟩

/-- C8 witness: at the concrete example12 candidate the deduced double
type is UNRELATED, the verdict is NOT_APPLICABLE and no diagnostic is
produced. -/
theorem C8_witness :
    ex12Candidate.resolvedType = some ResolvedType.unrelated ∧
      classify eigenCfg ResolvedType.unrelated = TypeVerdict.UNRELATED ∧
      (verdictOf eigenCfg ResolvedType.unrelated ex12Candidate.init = Verdict.NOT_APPLICABLE ∧
        diagnosticsFor eigenCfg ex12Candidate = [] ∧
        classify eigenCfg (ResolvedType.ref (ResolvedType.constQ ResolvedType.unrelated)) =
          TypeVerdict.UNRELATED) :=
  ⟨rfl, by decide,
    C8_unrelated_never_flagged eigenCfg ex12Candidate ResolvedType.unrelated
      rfl (by decide)⟩

/-- Candidates are produced in declaration order: the candidate locations
form a subsequence of the unit's declaration locations. -/
theorem findCandidates_loc_sublist (unit : List VarDecl) :
    ((findCandidates unit).map DeclarationCandidate.loc).Sublist
      (unit.map VarDecl.loc) := by
  induction unit with
  | nil => simp [findCandidates]
  | cons d rest ih =>
    obtain ⟨loc, kind, rt, ini⟩ := d
    cases kind with
    | inferred sp =>
      have hstep : findCandidates (⟨loc, DeclKind.inferred sp, rt, ini⟩ :: rest) =
          ⟨loc, sp, rt, ini⟩ :: findCandidates rest := by
        simp [findCandidates, List.filterMap_cons, candidateOf]
      rw [hstep]
      simp only [List.map_cons]
      exact ih.cons₂ loc
    | explicitTy =>
      have hstep : findCandidates (⟨loc, DeclKind.explicitTy, rt, ini⟩ :: rest) =
          findCandidates rest := by
        simp [findCandidates, List.filterMap_cons, candidateOf]
      rw [hstep]
      simp only [List.map_cons]
      exact ih.cons loc

/-- Diagnostics come out in candidate order: the diagnostic locations
form a subsequence of the candidate locations. -/
theorem diagnostics_loc_sublist (cfg : Config) (cs : List DeclarationCandidate) :
    ((cs.flatMap (diagnosticsFor cfg)).map Diagnostic.loc).Sublist
      (cs.map DeclarationCandidate.loc) := by
  induction cs with
  | nil => simp
  | cons c rest ih =>
    rcases diagnosticsFor_cases cfg c with h | h
    · simp only [List.flatMap_cons, h, List.nil_append, List.map_cons]
      exact ih.cons c.loc
    · simp only [List.flatMap_cons, h, List.singleton_append, List.map_cons]
      exact ih.cons₂ c.loc

/-- C9: analyzeUnit is a pure function of its input, so two runs on the
same unit under the same configuration yield the same diagnostic list;
candidates are emitted in declaration order and diagnostics in candidate
order (their location sequences are subsequences of the declaration
locations). -/
theorem C9_deterministic_and_ordered (cfg : Config) (unit : List VarDecl) :
    analyzeUnit cfg unit = analyzeUnit cfg unit ∧
      ((findCandidates unit).map DeclarationCandidate.loc).Sublist
        (unit.map VarDecl.loc) ∧
      ((analyzeUnit cfg unit).map Diagnostic.loc).Sublist
        ((findCandidates unit).map DeclarationCandidate.loc) ∧
      ((analyzeUnit cfg unit).map Diagnostic.loc).Sublist (unit.map VarDecl.loc) := by
  have h1 := findCandidates_loc_sublist unit
  have h2 : ((analyzeUnit cfg unit).map Diagnostic.loc).Sublist
      ((findCandidates unit).map DeclarationCandidate.loc) := by
    unfold analyzeUnit
    exact diagnostics_loc_sublist cfg (findCandidates unit)
  exact ⟨rfl, h1, h2, h2.trans h1⟩

/-- Every diagnostic of a unit comes from a candidate whose deduced type
classifies LAZY_COMPOSITE and whose initializing expression has shape
COMPOSITE: nothing else is ever reported. -/
theorem mem_analyzeUnit_only_lazy (cfg : Config) (unit : List VarDecl)
    (g : Diagnostic) (h : g ∈ analyzeUnit cfg unit) :
    ∃ c ∈ findCandidates unit, ∃ t, c.resolvedType = some t ∧
      classify cfg t = TypeVerdict.LAZY_COMPOSITE ∧
      shapeOf cfg c.init = InitShape.COMPOSITE ∧ g = mkDiagnostic c := by
  unfold analyzeUnit at h
  rcases List.mem_flatMap.mp h with ⟨c, hc, hg⟩
  refine ⟨c, hc, ?_⟩
  unfold diagnosticsFor at hg
  cases htc : c.resolvedType with
  | none => rw [htc] at hg; simp at hg
  | some t =>
    rw [htc] at hg
    by_cases hu : verdictOf cfg t c.init = Verdict.UNSAFE
    · have hgm : g = mkDiagnostic c := by
        simpa [hu] using hg
      obtain ⟨hcl, hsh⟩ := (unsafeVerdict_iff cfg t c.init).mp hu
      exact ⟨t, rfl, hcl, hsh, hgm⟩
    · simp [hu] at hg

/-- C10: a candidate whose deduced type is a const reference to the
owned matrix type — as in `const auto& C = (A * B).eval();` — is
classified PLAIN_VALUE, so its verdict is SAFE and no diagnostic is
produced; and every diagnostic the engine ever produces comes from a
lazy-composite deduction with a COMPOSITE shape, so the reference-lifetime
hazard of binding a reference to a materialized temporary is never
reported. -/
theorem C10_materialized_ref_binding_not_flagged (cfg : Config)
    (c : DeclarationCandidate)
    (ht : c.resolvedType =
      some (ResolvedType.ref (ResolvedType.constQ ResolvedType.owned))) :
    evaluate cfg c = some Verdict.SAFE ∧
      diagnosticsFor cfg c = [] ∧
      ∀ (unit : List VarDecl) (g : Diagnostic), g ∈ analyzeUnit cfg unit →
        ∃ c₂ ∈ findCandidates unit, ∃ t₂, c₂.resolvedType = some t₂ ∧
          classify cfg t₂ = TypeVerdict.LAZY_COMPOSITE ∧
          shapeOf cfg c₂.init = InitShape.COMPOSITE ∧ g = mkDiagnostic c₂ := by
  have hcl : classify cfg (ResolvedType.ref (ResolvedType.constQ ResolvedType.owned)) =
      TypeVerdict.PLAIN_VALUE := by
    simp [classify]
  have hv : verdictOf cfg (ResolvedType.ref (ResolvedType.constQ ResolvedType.owned))
      c.init = Verdict.SAFE := by
    simp [verdictOf, hcl]
  exact ⟨by simp [evaluate, ht, hv], by simp [diagnosticsFor, ht, hv],
    fun unit g hg => mem_analyzeUnit_only_lazy cfg unit g hg⟩

/-- The candidate produced by `const auto& C = (A * B).eval();`
(example4c of src/examples.cpp), whose deduced type is a const reference
to the owned dense matrix. -/
def ex4cCandidate : DeclarationCandidate :=
  ⟨106, Spelling.refBound,
    some (ResolvedType.ref (ResolvedType.constQ ResolvedType.owned)), exprEvalAB⟩

/-- C10 witness: at the concrete example4c candidate the hypothesis holds,
the verdict is SAFE, no diagnostic is produced, and only lazy-composite
deductions are ever reported. -/
theorem C10_witness :
    ex4cCandidate.resolvedType =
        some (ResolvedType.ref (ResolvedType.constQ ResolvedType.owned)) ∧
      (evaluate eigenCfg ex4cCandidate = some Verdict.SAFE ∧
        diagnosticsFor eigenCfg ex4cCandidate = [] ∧
        ∀ (unit : List VarDecl) (g : Diagnostic), g ∈ analyzeUnit eigenCfg unit →
          ∃ c₂ ∈ findCandidates unit, ∃ t₂, c₂.resolvedType = some t₂ ∧
            classify eigenCfg t₂ = TypeVerdict.LAZY_COMPOSITE ∧
            shapeOf eigenCfg c₂.init = InitShape.COMPOSITE ∧ g = mkDiagnostic c₂) :=
  ⟨rfl, C10_materialized_ref_binding_not_flagged eigenCfg ex4cCandidate rfl⟩
